import Mathlib

/-!
Verification of the multi-source OSINT probe orchestration engine of
`elite-recovery-app` against its natural-language specification.

The Python source (`recovery-app/osint-backend/main.py` and
`recovery-app/api/osint.py`) is shallowly embedded: pure parsing and
aggregation logic is translated into executable Lean functions, and the
boundary to the outside world (subprocess execution, output files, raw
stdout text already cut into lines/tokens) is an explicit environment
value passed to each adapter, with one constructor per exception class
the Python code catches.  All embedded functions are total, mirroring
the fact that every adapter catches every exception it can raise.

Python string primitives (`lower`, `split`, `strip`, `replace`,
`x in s`) are modelled below by structurally recursive functions over
the character list of a `String`, so that every embedded definition
evaluates inside the kernel on concrete inputs.
-/

/-- Python `s.lower()` (ASCII-relevant part). -/
def pyLower (s : String) : String :=
  ⟨s.data.map Char.toLower⟩

/-- Helper for `pyWords`: split a character list on whitespace runs,
accumulating the current (reversed) word. -/
def pyWordsAux : List Char → List Char → List String
  | [], cur => if cur = [] then [] else [⟨cur.reverse⟩]
  | c :: rest, cur =>
    if c.isWhitespace then
      if cur = [] then pyWordsAux rest []
      else (⟨cur.reverse⟩ : String) :: pyWordsAux rest []
    else pyWordsAux rest (c :: cur)

/-- Python `s.split()`: split on whitespace runs, discarding empties. -/
def pyWords (s : String) : List String :=
  pyWordsAux s.data []

/-- Helper: does `pat` occur as a contiguous sub-sequence of `l`? -/
def containsSubAux (pat : List Char) : List Char → Bool
  | [] => pat.isPrefixOf []
  | c :: rest => pat.isPrefixOf (c :: rest) || containsSubAux pat rest

/-- Python `pat in s` for substring containment. -/
def pyContains (s pat : String) : Bool :=
  containsSubAux pat.data s.data

/-- Helper: the characters strictly after the first occurrence of `pat`
(`none` when `pat` does not occur).  `s.split(pat)[1:]` re-joined. -/
def afterFirstAux (pat : List Char) : List Char → Option (List Char)
  | [] => if pat.isPrefixOf [] then some [] else none
  | c :: rest =>
    if pat.isPrefixOf (c :: rest) then some ((c :: rest).drop pat.length)
    else afterFirstAux pat rest

/-- Helper: the characters before the first occurrence of `pat`
(the whole list when `pat` does not occur): `s.split(pat)[0]`. -/
def beforeFirstAux (pat : List Char) : List Char → List Char
  | [] => []
  | c :: rest =>
    if pat.isPrefixOf (c :: rest) then []
    else c :: beforeFirstAux pat rest

/-- Python `s.split(pat)[0]`. -/
def pyBeforeFirst (s pat : String) : String :=
  ⟨beforeFirstAux pat.data s.data⟩

/-- Python `pat.join(s.split(pat)[1:])`: everything after the first
occurrence of `pat`, or `""` when `pat` does not occur. -/
def pyAfterFirst (s pat : String) : String :=
  ⟨(afterFirstAux pat.data s.data).getD []⟩

/-- Fuel-driven engine of Python `s.replace(pat, repl)`: scan left to
right, replacing non-overlapping occurrences.  Each step consumes at
least one character, so fuel `s.length` always suffices. -/
def pyReplaceAux (pat repl : List Char) : Nat → List Char → List Char
  | 0, l => l
  | _ + 1, [] => []
  | fuel + 1, c :: rest =>
    if pat.isPrefixOf (c :: rest) ∧ pat ≠ [] then
      repl ++ pyReplaceAux pat repl fuel ((c :: rest).drop pat.length)
    else c :: pyReplaceAux pat repl fuel rest

/-- Python `s.replace(pat, repl)` (for the nonempty patterns the source
uses). -/
def pyReplace (s pat repl : String) : String :=
  ⟨pyReplaceAux pat.data repl.data s.data.length s.data⟩

/-- Python `s.strip()`: remove leading and trailing whitespace. -/
def pyStrip (s : String) : String :=
  ⟨((s.data.dropWhile Char.isWhitespace).reverse.dropWhile Char.isWhitespace).reverse⟩

/-- Python `s.startswith(pat)`. -/
def pyStartsWith (s pat : String) : Bool :=
  pat.data.isPrefixOf s.data

/-- Python `dict.fromkeys` / `url not in all_found` de-duplication:
fold the list into an accumulator, appending an element only when it is
not already present, so the first occurrence and its position win. -/
def pyDedupAux {α : Type} [DecidableEq α] : List α → List α → List α
  | acc, [] => acc
  | acc, a :: l => pyDedupAux (if a ∈ acc then acc else acc ++ [a]) l

/-- `list(dict.fromkeys(xs))`: first-occurrence de-duplication. -/
def pyDedup {α : Type} [DecidableEq α] (l : List α) : List α :=
  pyDedupAux [] l

theorem pyDedupAux_nil {α : Type} [DecidableEq α] (acc : List α) :
    pyDedupAux acc [] = acc := rfl

theorem pyDedupAux_cons {α : Type} [DecidableEq α] (acc : List α) (a : α) (l : List α) :
    pyDedupAux acc (a :: l) = pyDedupAux (if a ∈ acc then acc else acc ++ [a]) l := rfl

theorem pyDedupAux_append {α : Type} [DecidableEq α] (l₁ l₂ acc : List α) :
    pyDedupAux acc (l₁ ++ l₂) = pyDedupAux (pyDedupAux acc l₁) l₂ := by
  induction l₁ generalizing acc with
  | nil => rfl
  | cons a l ih => simp only [List.cons_append, pyDedupAux_cons, ih]

theorem mem_pyDedupAux {α : Type} [DecidableEq α] (x : α) (l acc : List α) :
    x ∈ pyDedupAux acc l ↔ x ∈ acc ∨ x ∈ l := by
  induction l generalizing acc with
  | nil => simp [pyDedupAux_nil]
  | cons a l ih =>
    rw [pyDedupAux_cons]
    by_cases h : a ∈ acc
    · simp only [if_pos h, ih, List.mem_cons]
      constructor
      · rintro (hx | hx)
        · exact Or.inl hx
        · exact Or.inr (Or.inr hx)
      · rintro (hx | rfl | hx)
        · exact Or.inl hx
        · exact Or.inl h
        · exact Or.inr hx
    · simp only [if_neg h, ih, List.mem_append, List.mem_singleton, List.mem_cons]
      tauto

theorem pyDedupAux_nodup {α : Type} [DecidableEq α] (l : List α) :
    ∀ acc : List α, acc.Nodup → (pyDedupAux acc l).Nodup := by
  induction l with
  | nil => intro acc h; exact h
  | cons a l ih =>
    intro acc h
    rw [pyDedupAux_cons]
    by_cases ha : a ∈ acc
    · rw [if_pos ha]; exact ih acc h
    · rw [if_neg ha]
      refine ih _ ?_
      simp [List.nodup_append, h, ha]

/-- De-duplication only deletes later repeats: the result extends the
accumulator by a subsequence of the input, so first-occurrence order is
preserved. -/
theorem pyDedupAux_extends {α : Type} [DecidableEq α] (l : List α) :
    ∀ acc : List α, ∃ t, pyDedupAux acc l = acc ++ t ∧ List.Sublist t l := by
  induction l with
  | nil => intro acc; exact ⟨[], by simp [pyDedupAux_nil]⟩
  | cons a l ih =>
    intro acc
    rw [pyDedupAux_cons]
    by_cases ha : a ∈ acc
    · rw [if_pos ha]
      obtain ⟨t, ht, hs⟩ := ih acc
      exact ⟨t, ht, List.Sublist.cons a hs⟩
    · rw [if_neg ha]
      obtain ⟨t, ht, hs⟩ := ih (acc ++ [a])
      exact ⟨a :: t, by simpa using ht, List.Sublist.cons₂ a hs⟩

theorem pyDedup_nodup {α : Type} [DecidableEq α] (l : List α) :
    (pyDedup l).Nodup :=
  pyDedupAux_nodup l [] List.nodup_nil

theorem pyDedup_sub {α : Type} [DecidableEq α] (l : List α) :
    List.Sublist (pyDedup l) l := by
  obtain ⟨t, ht, hs⟩ := pyDedupAux_extends l []
  simpa [pyDedup, ht] using hs

theorem mem_pyDedup {α : Type} [DecidableEq α] (x : α) (l : List α) :
    x ∈ pyDedup l ↔ x ∈ l := by
  simp [pyDedup, mem_pyDedupAux]

namespace OsintBackend

/-!  Embedding of `recovery-app/osint-backend/main.py`. -/

/-- The raw candidate list built by `generate_username_variations`
(main.py 1312-1345) before the `len(v) > 2` filter and the
`dict.fromkeys` de-duplication.  Only used on names of at least two
whitespace tokens, matching the `len(parts) >= 2` branch. -/
def rawVariations (full_name : String) : List String :=
  let parts := pyWords (pyLower full_name)
  let first := parts.headD ""
  let last := parts.getLastD ""
  let middle := if parts.length > 2 then parts.getD 1 "" else ""
  let first_initial := first.take 1
  let last_initial := last.take 1
  let variations := [
    first ++ last,
    first ++ "_" ++ last,
    first ++ "." ++ last,
    first ++ "-" ++ last,
    last ++ first,
    first_initial ++ last,
    first ++ last_initial,
    first ++ "_" ++ last_initial,
    last ++ "_" ++ first,
    first ++ last ++ "1",
    first ++ last ++ "123",
    "real" ++ first ++ last,
    "the" ++ first ++ last,
    first ++ "official" ]
  variations ++
    (if middle ≠ "" then
      [first ++ middle.take 1 ++ last, first ++ "_" ++ middle.take 1 ++ "_" ++ last]
    else [])

/-- `generate_username_variations` (main.py 1312-1348).  A single-token
name falls back to the lower-cased name with spaces removed; otherwise
the fixed variation list is filtered to length `> 2` and de-duplicated
keeping first occurrences. -/
def generate_username_variations (full_name : String) : List String :=
  let parts := pyWords (pyLower full_name)
  if parts.length < 2 then
    [pyReplace (pyLower full_name) " " ""]
  else
    pyDedup ((rawVariations full_name).filter (fun v => 2 < v.length))

end OsintBackend

/-- C6: `generate_username_variations "Amanda Driskell"` is the fixed
14-element list below (hence deterministic), includes the five required
candidates, has no duplicates, and no entry shorter than 3 characters. -/
theorem C6_amanda_driskell_variations :
    OsintBackend.generate_username_variations "Amanda Driskell" =
      ["amandadriskell", "amanda_driskell", "amanda.driskell",
       "amanda-driskell", "driskellamanda", "adriskell", "amandad",
       "amanda_d", "driskell_amanda", "amandadriskell1",
       "amandadriskell123", "realamandadriskell", "theamandadriskell",
       "amandaofficial"] ∧
    "amandadriskell" ∈ OsintBackend.generate_username_variations "Amanda Driskell" ∧
    "amanda.driskell" ∈ OsintBackend.generate_username_variations "Amanda Driskell" ∧
    "amanda_driskell" ∈ OsintBackend.generate_username_variations "Amanda Driskell" ∧
    "adriskell" ∈ OsintBackend.generate_username_variations "Amanda Driskell" ∧
    "driskellamanda" ∈ OsintBackend.generate_username_variations "Amanda Driskell" ∧
    (OsintBackend.generate_username_variations "Amanda Driskell").Nodup ∧
    (∀ v ∈ OsintBackend.generate_username_variations "Amanda Driskell", 3 ≤ v.length) := by
  decide

/-- C8: a single-token name returns exactly the lower-cased token alone. -/
theorem C8_single_token_cher :
    OsintBackend.generate_username_variations "Cher" = ["cher"] := by
  decide

/-- C7 counterexample: on the single-token input `"Al"` the function
returns the candidate `"al"` of length 2, so it is not true that every
candidate for every input has length at least 3. -/
theorem C7_counterexample :
    OsintBackend.generate_username_variations "Al" = ["al"] ∧
    "al" ∈ OsintBackend.generate_username_variations "Al" ∧
    ("al" : String).length < 3 := by
  decide

/-- C7 (amended): the returned list never contains duplicates, and for
names of at least two whitespace tokens every candidate has length at
least 3 and the list is a subsequence of the filtered raw-variation
list, so first-occurrence order is preserved.  (The single-token
fallback skips the length filter, as the counterexample shows.) -/
theorem C7_variations_nodup_and_length :
    ∀ full_name : String,
      (OsintBackend.generate_username_variations full_name).Nodup ∧
      (2 ≤ (pyWords (pyLower full_name)).length →
        (∀ v ∈ OsintBackend.generate_username_variations full_name, 3 ≤ v.length) ∧
        List.Sublist (OsintBackend.generate_username_variations full_name)
          ((OsintBackend.rawVariations full_name).filter (fun v => 2 < v.length))) := by
  intro full_name
  constructor
  · unfold OsintBackend.generate_username_variations
    by_cases h : (pyWords (pyLower full_name)).length < 2
    · simp [h]
    · simp only [h, if_false]
      exact pyDedup_nodup _
  · intro h2
    have hnot : ¬ (pyWords (pyLower full_name)).length < 2 := by omega
    constructor
    · intro v hv
      unfold OsintBackend.generate_username_variations at hv
      simp only [hnot, if_false] at hv
      have hmem := (mem_pyDedup v _).mp hv
      have hfil := List.of_mem_filter hmem
      have hlen : 2 < v.length := by simpa using hfil
      omega
    · unfold OsintBackend.generate_username_variations
      simp only [hnot, if_false]
      exact pyDedup_sub _

/-- C7 witness: the amended theorem applied at the concrete two-token
name `"Amanda Driskell"`, discharging the token-count hypothesis. -/
theorem C7_witness :
    2 ≤ (pyWords (pyLower "Amanda Driskell")).length ∧
    (∀ v ∈ OsintBackend.generate_username_variations "Amanda Driskell", 3 ≤ v.length) := by
  refine ⟨by decide, ?_⟩
  exact fun v hv =>
    ((C7_variations_nodup_and_length "Amanda Driskell").2 (by decide)).1 v hv

namespace OsintBackend

/-- One claimed hit as the username adapters emit it and as
`full_username_search` (main.py 471-492) consumes it.  Sherlock entries
carry a `response_time`, Maigret entries carry `tags`/`ids`; the Python
dicts are heterogeneous, so the structure carries all fields with empty
defaults. -/
structure Finding where
  platform : String
  url : String
  tags : List String := []
  ids : List (String × String) := []
  response_time_s : Nat := 0
deriving DecidableEq

/-- Python `all_found[url] = item` on an insertion-ordered dict: update
in place when the key exists (keeping its position), else append. -/
def insertOverwrite (m : List (String × Finding)) (k : String) (v : Finding) :
    List (String × Finding) :=
  if k ∈ m.map Prod.fst then
    m.map (fun p => if p.1 = k then (p.1, v) else p)
  else m ++ [(k, v)]

/-- Python `if url not in all_found: all_found[url] = item`. -/
def insertIfAbsent (m : List (String × Finding)) (k : String) (v : Finding) :
    List (String × Finding) :=
  if k ∈ m.map Prod.fst then m else m ++ [(k, v)]

/-- First merge loop of `full_username_search` (main.py 473-476): every
Sherlock finding with a nonempty URL is written into `all_found`,
overwriting an existing entry for the same URL. -/
def sherlockPhase : List (String × Finding) → List Finding → List (String × Finding)
  | m, [] => m
  | m, item :: rest =>
    sherlockPhase (if item.url ≠ "" then insertOverwrite m item.url item else m) rest

/-- Second merge loop of `full_username_search` (main.py 478-481): a
Maigret finding with a nonempty URL is inserted only when its URL is
not yet a key. -/
def maigretPhase : List (String × Finding) → List Finding → List (String × Finding)
  | m, [] => m
  | m, item :: rest =>
    maigretPhase (if item.url ≠ "" then insertIfAbsent m item.url item else m) rest

/-- The `all_found` dict built by `full_username_search`: Sherlock
findings first, then Maigret findings. -/
def mergeFull (sherlockFound maigretFound : List Finding) : List (String × Finding) :=
  maigretPhase (sherlockPhase [] sherlockFound) maigretFound

/-- `list(all_found.values())`: the combined, deduplicated profile
list returned by `full_username_search`. -/
def combinedProfiles (s m : List Finding) : List Finding :=
  (mergeFull s m).map Prod.snd

/-- The insert-if-absent dedup over a single finding list, as
`multi_username_search` builds its `all_found` (main.py 1381-1387; the
stored values there additionally carry `searched_username`, which does
not affect which URL keys are kept). -/
def dedupByUrl (l : List Finding) : List (String × Finding) :=
  maigretPhase [] l

/-- `all_found[k]`: the entry stored under key `k`. -/
def lookupKey (m : List (String × Finding)) (k : String) : Option Finding :=
  (m.find? (fun p => p.1 == k)).map Prod.snd

/-- The nonempty URLs of a finding list, in order — exactly the keys
the merge loops consider (`url = item.get('url',''); if url: ...`). -/
def urlsOf (l : List Finding) : List String :=
  (l.map Finding.url).filter (fun u => u ≠ "")

theorem keysMapUpdate (m : List (String × Finding)) (k : String) (v : Finding) :
    (m.map (fun p => if p.1 = k then (p.1, v) else p)).map Prod.fst = m.map Prod.fst := by
  induction m with
  | nil => rfl
  | cons p t ih =>
    by_cases h : p.1 = k
    · simp only [List.map_cons, if_pos h, ih]
    · simp only [List.map_cons, if_neg h, ih]

theorem keys_insertOverwrite (m : List (String × Finding)) (k : String) (v : Finding) :
    (insertOverwrite m k v).map Prod.fst =
      (if k ∈ m.map Prod.fst then m.map Prod.fst else m.map Prod.fst ++ [k]) := by
  unfold insertOverwrite
  by_cases h : k ∈ m.map Prod.fst
  · rw [if_pos h, if_pos h, keysMapUpdate]
  · rw [if_neg h, if_neg h]
    simp

theorem keys_insertIfAbsent (m : List (String × Finding)) (k : String) (v : Finding) :
    (insertIfAbsent m k v).map Prod.fst =
      (if k ∈ m.map Prod.fst then m.map Prod.fst else m.map Prod.fst ++ [k]) := by
  unfold insertIfAbsent
  by_cases h : k ∈ m.map Prod.fst <;> simp [h]

theorem urlsOf_cons (x : Finding) (l : List Finding) :
    urlsOf (x :: l) = if x.url ≠ "" then x.url :: urlsOf l else urlsOf l := by
  by_cases h : x.url = "" <;> simp [urlsOf, List.filter_cons, h]

theorem urlsOf_append (l₁ l₂ : List Finding) :
    urlsOf (l₁ ++ l₂) = urlsOf l₁ ++ urlsOf l₂ := by
  simp [urlsOf, List.filter_append]

theorem keys_sherlockPhase (l : List Finding) :
    ∀ m : List (String × Finding),
      (sherlockPhase m l).map Prod.fst = pyDedupAux (m.map Prod.fst) (urlsOf l) := by
  induction l with
  | nil => intro m; simp [sherlockPhase, urlsOf, pyDedupAux_nil]
  | cons x rest ih =>
    intro m
    rw [sherlockPhase, urlsOf_cons]
    by_cases h : x.url = ""
    · simp only [h, ne_eq, not_true_eq_false, if_false, ite_false]
      exact ih m
    · simp only [h, ne_eq, not_false_eq_true, if_true, ite_true, pyDedupAux_cons]
      rw [ih, keys_insertOverwrite]

theorem keys_maigretPhase (l : List Finding) :
    ∀ m : List (String × Finding),
      (maigretPhase m l).map Prod.fst = pyDedupAux (m.map Prod.fst) (urlsOf l) := by
  induction l with
  | nil => intro m; simp [maigretPhase, urlsOf, pyDedupAux_nil]
  | cons x rest ih =>
    intro m
    rw [maigretPhase, urlsOf_cons]
    by_cases h : x.url = ""
    · simp only [h, ne_eq, not_true_eq_false, if_false, ite_false]
      exact ih m
    · simp only [h, ne_eq, not_false_eq_true, if_true, ite_true, pyDedupAux_cons]
      rw [ih, keys_insertIfAbsent]

theorem maigretPhase_append (l₁ l₂ : List Finding) :
    ∀ m : List (String × Finding),
      maigretPhase m (l₁ ++ l₂) = maigretPhase (maigretPhase m l₁) l₂ := by
  induction l₁ with
  | nil => intro m; rfl
  | cons x rest ih => intro m; rw [List.cons_append, maigretPhase, maigretPhase, ih]

/-- The insert-if-absent loop leaves the dict unchanged when every
incoming URL is empty or already a key. -/
theorem maigretPhase_id (l : List Finding) :
    ∀ m : List (String × Finding),
      (∀ x ∈ l, x.url = "" ∨ x.url ∈ m.map Prod.fst) → maigretPhase m l = m := by
  induction l with
  | nil => intro m _; rfl
  | cons x rest ih =>
    intro m h
    have hx := h x (List.mem_cons_self x rest)
    have hstep : (if x.url ≠ "" then insertIfAbsent m x.url x else m) = m := by
      rcases hx with hx | hx
      · simp [hx]
      · by_cases hu : x.url = ""
        · simp [hu]
        · simp [hu, insertIfAbsent, hx]
    rw [maigretPhase, hstep]
    exact ih m (fun y hy => h y (List.mem_cons_of_mem x hy))

end OsintBackend

namespace OsintBackend

/-- `all_found[k]` is unaffected by appending fresh entries. -/
theorem lookup_append_left (m rest : List (String × Finding)) (k : String)
    (h : k ∈ m.map Prod.fst) :
    lookupKey (m ++ rest) k = lookupKey m k := by
  induction m with
  | nil => simp at h
  | cons p t ih =>
    by_cases hp : p.1 = k
    · have hb : (p.1 == k) = true := beq_iff_eq.mpr hp
      simp [lookupKey, List.find?, hb]
    · have hb : (p.1 == k) = false := beq_eq_false_iff_ne.mpr hp
      have hk : k ∈ t.map Prod.fst := by
        rw [List.map_cons, List.mem_cons] at h
        rcases h with h' | h'
        · exact absurd h'.symm hp
        · exact h'
      have := ih hk
      simpa [lookupKey, List.find?, hb] using this

/-- The insert-if-absent loop never modifies an entry that already
exists: its stored finding — platform label, tags and all — stays
exactly as the earlier phase left it. -/
theorem lookup_maigretPhase (l : List Finding) :
    ∀ (m : List (String × Finding)) (k : String), k ∈ m.map Prod.fst →
      lookupKey (maigretPhase m l) k = lookupKey m k := by
  induction l with
  | nil => intro m k _; rfl
  | cons x rest ih =>
    intro m k hk
    rw [maigretPhase]
    by_cases hu : x.url = ""
    · simp only [hu, ne_eq, not_true_eq_false, if_false, ite_false]
      exact ih m k hk
    · simp only [hu, ne_eq, not_false_eq_true, if_true, ite_true]
      unfold insertIfAbsent
      by_cases hx : x.url ∈ m.map Prod.fst
      · rw [if_pos hx]
        exact ih m k hk
      · rw [if_neg hx]
        have hk' : k ∈ (m ++ [(x.url, x)]).map Prod.fst := by
          simp only [List.map_append, List.mem_append]
          exact Or.inl hk
        rw [ih _ k hk']
        exact lookup_append_left m _ k hk

end OsintBackend

/-- Modelled from the spec (§3, Finding): the canonical URL used as the
deduplication key — scheme and host lower-cased, trailing slash
stripped from the path, query string dropped.  The source has no such
function (it keys on the raw URL string); this definition follows the
spec's words so the two behaviours can be compared. -/
def specCanonicalUrl (u : String) : String :=
  let noQuery : List Char := beforeFirstAux ['?'] u.data
  let canon : List Char :=
    match afterFirstAux [':', '/', '/'] noQuery with
    | some rest =>
      let scheme := beforeFirstAux [':', '/', '/'] noQuery
      let host := beforeFirstAux ['/'] rest
      (scheme.map Char.toLower) ++ [':', '/', '/'] ++ (host.map Char.toLower) ++
        (match afterFirstAux ['/'] rest with
         | some p => '/' :: p
         | none => [])
    | none => noQuery.map Char.toLower
  ⟨match canon.reverse with
   | '/' :: rest => rest.reverse
   | _ => canon⟩

/-- C3 counterexample: two findings whose URLs differ only in host
letter-case and a trailing slash — equal canonical URLs in the spec's
sense — are NOT merged by `full_username_search`: both survive as
separate entries, because the code keys on the raw URL string. -/
theorem C3_counterexample :
    specCanonicalUrl "https://Example.com/profile" =
      specCanonicalUrl "https://example.com/profile/" ∧
    ("https://Example.com/profile" : String) ≠ "https://example.com/profile/" ∧
    OsintBackend.combinedProfiles
      [⟨"GitHub", "https://Example.com/profile", [], [], 0⟩]
      [⟨"Gist", "https://example.com/profile/", [], [], 0⟩] =
      [⟨"GitHub", "https://Example.com/profile", [], [], 0⟩,
       ⟨"Gist", "https://example.com/profile/", [], [], 0⟩] := by
  decide

/-- C3 (amended): deduplication in `full_username_search` (and in the
insert-if-absent dict of `multi_username_search`) keys findings by the
EXACT raw URL string: the key set of the merged dict is exactly the
first-occurrence dedup of the nonempty URL strings, so URLs differing
in case, trailing slash or query string stay distinct entries. -/
theorem C3_dedup_by_exact_url (s m : List OsintBackend.Finding) :
    (OsintBackend.mergeFull s m).map Prod.fst =
      pyDedup (OsintBackend.urlsOf (s ++ m)) ∧
    (OsintBackend.dedupByUrl (s ++ m)).map Prod.fst =
      pyDedup (OsintBackend.urlsOf (s ++ m)) := by
  constructor
  · rw [OsintBackend.mergeFull, OsintBackend.keys_maigretPhase,
      OsintBackend.keys_sherlockPhase, OsintBackend.urlsOf_append]
    simp [pyDedup, pyDedupAux_append]
  · rw [OsintBackend.dedupByUrl, OsintBackend.keys_maigretPhase]
    simp [pyDedup]

/-- C4 counterexample: when Sherlock and Maigret both report the URL
`https://x.com/a`, the Maigret duplicate's tag `music` is NOT unioned
into the kept entry — the merged collection holds only the untouched
Sherlock entry with empty tags. -/
theorem C4_counterexample :
    OsintBackend.combinedProfiles
      [⟨"Sherlock", "https://x.com/a", [], [], 0⟩]
      [⟨"Maigret", "https://x.com/a", ["music"], [], 0⟩] =
      [⟨"Sherlock", "https://x.com/a", [], [], 0⟩] ∧
    (∀ f ∈ OsintBackend.combinedProfiles
      [⟨"Sherlock", "https://x.com/a", [], [], 0⟩]
      [⟨"Maigret", "https://x.com/a", ["music"], [], 0⟩], "music" ∉ f.tags) := by
  decide

/-- C4 (amended): for any URL present after the Sherlock (first
priority) phase, the Maigret phase of `full_username_search` keeps the
stored entry completely unchanged — the first-arriving platform label
is kept, and the later duplicate is discarded whole, its tags/metadata
NOT unioned into the kept entry. -/
theorem C4_first_entry_kept (s m : List OsintBackend.Finding) (k : String)
    (h : k ∈ (OsintBackend.sherlockPhase [] s).map Prod.fst) :
    OsintBackend.lookupKey (OsintBackend.mergeFull s m) k =
      OsintBackend.lookupKey (OsintBackend.sherlockPhase [] s) k :=
  OsintBackend.lookup_maigretPhase m _ k h

/-- C4 witness: the amended theorem at a concrete duplicate URL. -/
theorem C4_witness :
    "https://x.com/a" ∈
      (OsintBackend.sherlockPhase []
        [⟨"Sherlock", "https://x.com/a", [], [], 0⟩]).map Prod.fst ∧
    OsintBackend.lookupKey
      (OsintBackend.mergeFull [⟨"Sherlock", "https://x.com/a", [], [], 0⟩]
        [⟨"Maigret", "https://x.com/a", ["music"], [], 0⟩]) "https://x.com/a" =
      OsintBackend.lookupKey
        (OsintBackend.sherlockPhase []
          [⟨"Sherlock", "https://x.com/a", [], [], 0⟩]) "https://x.com/a" :=
  ⟨by decide, C4_first_entry_kept _ _ _ (by decide)⟩

/-- C5: the merge/deduplication of `full_username_search` is
idempotent — merging a collection with (a second copy of) itself
yields exactly the merge of the collection alone, both for the
two-phase Sherlock+Maigret merge and for the plain insert-if-absent
dedup applied to the concatenation of a collection with itself. -/
theorem C5_merge_idempotent (X : List OsintBackend.Finding) :
    OsintBackend.mergeFull X X = OsintBackend.mergeFull X [] ∧
    OsintBackend.dedupByUrl (X ++ X) = OsintBackend.dedupByUrl X := by
  have hmem : ∀ (acc : List (String × OsintBackend.Finding)),
      ((acc.map Prod.fst = pyDedupAux [] (OsintBackend.urlsOf X)) →
        ∀ x ∈ X, x.url = "" ∨ x.url ∈ acc.map Prod.fst) := by
    intro acc hacc x hx
    by_cases hu : x.url = ""
    · exact Or.inl hu
    · refine Or.inr ?_
      rw [hacc, mem_pyDedupAux]
      refine Or.inr ?_
      simp only [OsintBackend.urlsOf, List.mem_filter, List.mem_map]
      exact ⟨⟨x, hx, rfl⟩, by simpa using hu⟩
  constructor
  · show OsintBackend.maigretPhase (OsintBackend.sherlockPhase [] X) X =
      OsintBackend.mergeFull X []
    rw [OsintBackend.maigretPhase_id X _
      (hmem _ (by rw [OsintBackend.keys_sherlockPhase]; rfl))]
    rfl
  · rw [OsintBackend.dedupByUrl, OsintBackend.maigretPhase_append,
      OsintBackend.maigretPhase_id X _
        (hmem _ (by rw [OsintBackend.keys_maigretPhase]; rfl))]
    rfl

/-- Outcome of the `try` body's boundary step (subprocess execution and
output-file access), one constructor per `except` clause of the
adapters: normal completion with raw output, `subprocess.TimeoutExpired`,
`FileNotFoundError` (tool binary absent), or any other `Exception`
carrying its message text. -/
inductive AdapterEnv (α : Type) where
  | ok (raw : α)
  | timeout
  | binMissing
  | exc (msg : String)

namespace OsintBackend

/-- One site record of Sherlock's JSON output file; `status` is absent
(`none`) when the key is missing. -/
structure SherlockSiteInfo where
  status : Option String
  url_user : String := ""
  response_time_s : Nat := 0

/-- Raw output of a completed Sherlock run: the JSON output file (when
it was created) and the URL tokens of stdout lines that contain both
`[+]` and `http` (main.py 167-175 splits such lines into whitespace
tokens; what is subprocess text is supplied by the environment). -/
structure SherlockRaw where
  jsonData : Option (List (String × SherlockSiteInfo))
  stdoutTokens : List String := []

/-- The result dict shared by `run_sherlock` and `run_maigret`
(`searched_at` and `execution_time` are wall-clock readings, not
modelled). -/
structure UsernameSearchResult where
  username : String
  tool : String
  total_sites : Nat
  found : List Finding
  not_found : List String
  errors : List String

/-- The JSON-file loop of `run_sherlock` (main.py 155-165). -/
def sherlockParseJson (data : List (String × SherlockSiteInfo)) :
    List Finding × List String × List String :=
  data.foldl
    (fun acc p =>
      if p.2.status = some "Claimed" then
        (acc.1 ++ [⟨p.1, p.2.url_user, [], [], p.2.response_time_s⟩], acc.2.1, acc.2.2)
      else if p.2.status = some "Available" then
        (acc.1, acc.2.1 ++ [p.1], acc.2.2)
      else
        (acc.1, acc.2.1, acc.2.2 ++ [p.1 ++ ": " ++ (p.2.status.getD "Unknown")]))
    ([], [], [])

/-- The stdout loop of `run_sherlock` (main.py 168-181): a token
starting with `http` is appended as an `Unknown`-platform finding
unless some already-found entry has the same URL. -/
def sherlockStdoutPhase (found : List Finding) (tokens : List String) : List Finding :=
  tokens.foldl
    (fun f part =>
      if pyStartsWith part "http" ∧ ¬ (f.any (fun x => x.url == part)) then
        f ++ [⟨"Unknown", part, [], [], 0⟩]
      else f)
    found

/-- The parsed (found, not_found, parse-errors) triple of one
`run_sherlock` execution; empty on the exception paths, which fire at
the subprocess boundary before any list is filled. -/
def sherlockParsed (env : AdapterEnv SherlockRaw) :
    List Finding × List String × List String :=
  match env with
  | .ok raw =>
    let base := match raw.jsonData with
      | some data => sherlockParseJson data
      | none => ([], [], [])
    (sherlockStdoutPhase base.1 raw.stdoutTokens, base.2.1, base.2.2)
  | _ => ([], [], [])

/-- `run_sherlock` (main.py 123-201). -/
def run_sherlock (username : String) (env : AdapterEnv SherlockRaw) :
    UsernameSearchResult :=
  let p := sherlockParsed env
  let extra : List String :=
    match env with
    | .ok _ => []
    | .timeout => ["Search timed out"]
    | .binMissing => ["Sherlock not installed. Run: pip install sherlock-project"]
    | .exc m => ["Error: " ++ m]
  { username := username
    tool := "sherlock"
    total_sites := p.1.length + p.2.1.length
    found := p.1
    not_found := p.2.1
    errors := p.2.2 ++ extra }

/-- One value of Maigret's JSON dict: a site-info dict, or a non-dict
value (skipped by the `isinstance(info, dict)` guard). -/
inductive MaigretVal where
  | obj (status : Option String) (exists_flag : Bool) (url : Option String)
      (url_user : Option String) (tags : List String) (ids : List (String × String))
  | nonDict

/-- Maigret's JSON output: the file may be absent, and when present its
top-level value may not be a dict (then the whole loop is skipped). -/
inductive MaigretJson where
  | dict (entries : List (String × MaigretVal))
  | nonDict

/-- Raw output of a completed Maigret run. -/
structure MaigretRaw where
  jsonData : Option MaigretJson

/-- The parse loop of `run_maigret` (main.py 252-263): a dict-valued
site whose status is `Claimed` or whose `exists` field is truthy is a
finding (URL from `url`, falling back to `url_user`, then `""`);
other dict-valued sites go to `not_found`; non-dict values are
skipped. -/
def maigretParse (data : List (String × MaigretVal)) : List Finding × List String :=
  data.foldl
    (fun acc p =>
      match p.2 with
      | .nonDict => acc
      | .obj status exists_flag url url_user tags ids =>
        if status = some "Claimed" ∨ exists_flag then
          (acc.1 ++ [⟨p.1, url.getD (url_user.getD ""), tags, ids, 0⟩], acc.2)
        else (acc.1, acc.2 ++ [p.1]))
    ([], [])

/-- The parsed (found, not_found) pair of one `run_maigret`
execution. -/
def maigretParsed (env : AdapterEnv MaigretRaw) : List Finding × List String :=
  match env with
  | .ok raw =>
    match raw.jsonData with
    | some (.dict entries) => maigretParse entries
    | _ => ([], [])
  | _ => ([], [])

/-- `run_maigret` (main.py 221-283).  Note `total_sites` is computed
from the FULL `not_found` list, while the returned `not_found` value is
truncated to its first 50 entries. -/
def run_maigret (username : String) (env : AdapterEnv MaigretRaw) :
    UsernameSearchResult :=
  let p := maigretParsed env
  let extra : List String :=
    match env with
    | .ok _ => []
    | .timeout => ["Search timed out"]
    | .binMissing => ["Maigret not installed. Run: pip install maigret"]
    | .exc m => ["Error: " ++ m]
  { username := username
    tool := "maigret"
    total_sites := p.1.length + p.2.length
    found := p.1
    not_found := p.2.take 50
    errors := extra }

/-- One service record parsed from a holehe `[+]` line. -/
structure HolheEntry where
  service : String
  status : String
  details : String
deriving DecidableEq

/-- Raw output of a completed holehe run: `result.stdout.split('\n')`. -/
structure HolheRaw where
  stdoutLines : List String

/-- The result dict of `run_holehe` (main.py 358-366). -/
structure HolheResult where
  email : String
  tool : String
  registered_on : List HolheEntry
  not_registered : List String
  errors : List String

/-- The stdout parse loop of `run_holehe` (main.py 321-347): `[+]`
lines become registered services (name before the first `:`, details
after it), `[-]` lines feed `not_registered`, `[x]` lines feed
`errors`; blank lines are skipped. -/
def holheParseLines (lines : List String) :
    List HolheEntry × List String × List String :=
  lines.foldl
    (fun acc line =>
      let l := pyStrip line
      if l = "" then acc
      else if pyContains l "[+]" then
        let cleaned := pyStrip (pyReplace l "[+]" "")
        let service := pyStrip (pyBeforeFirst cleaned ":")
        let details :=
          if pyContains cleaned ":" then pyStrip (pyAfterFirst cleaned ":") else ""
        (acc.1 ++ [⟨service, "registered", details⟩], acc.2.1, acc.2.2)
      else if pyContains l "[-]" then
        let cleaned := pyStrip (pyReplace l "[-]" "")
        (acc.1, acc.2.1 ++ [pyStrip (pyBeforeFirst cleaned ":")], acc.2.2)
      else if pyContains l "[x]" then
        let cleaned := pyStrip (pyReplace l "[x]" "")
        (acc.1, acc.2.1, acc.2.2 ++ [pyStrip (pyBeforeFirst cleaned ":")])
      else acc)
    ([], [], [])

/-- The parsed (registered, not_registered, errors) triple of one
`run_holehe` execution. -/
def holheParsed (env : AdapterEnv HolheRaw) :
    List HolheEntry × List String × List String :=
  match env with
  | .ok raw => holheParseLines raw.stdoutLines
  | _ => ([], [], [])

/-- `run_holehe` (main.py 303-366).  The returned `not_registered`
value is truncated to its first 20 entries; `registered_on` is not
truncated. -/
def run_holehe (email : String) (env : AdapterEnv HolheRaw) : HolheResult :=
  let p := holheParsed env
  let extra : List String :=
    match env with
    | .ok _ => []
    | .timeout => ["Search timed out"]
    | .binMissing => ["holehe not installed. Run: pip install holehe"]
    | .exc m => ["Error: " ++ m]
  { email := email
    tool := "holehe"
    registered_on := p.1
    not_registered := p.2.1.take 20
    errors := p.2.2 ++ extra }

end OsintBackend

namespace ApiOsint

/-!  Embedding of `recovery-app/api/osint.py` (the Vercel serverless
variant of the three adapters). -/

/-- One stdout line together with the result of
`re.search(r'https?://[^\s]+', line)` on it.  The regex match itself is
part of the raw-text boundary and is supplied by the environment; no
claim depends on the lexical extraction. -/
structure ApiLine where
  text : String
  urlMatch : Option String

/-- One entry of the api adapters' `results` list. -/
structure ApiSite where
  site : String
  url : String
  status : String
deriving DecidableEq

/-- The dict returned by the api `run_sherlock` / `run_maigret`.  The
Python dicts have DIFFERENT key sets per branch, so keys that are
absent on some paths are `Option` fields with `none` meaning the key is
missing from the dict. -/
structure ApiUsernameResult where
  username : String
  sites_checked : Option Nat
  sites_found : Option Nat
  results : Option (List ApiSite)
  error : Option String

/-- `line.split('[+]')[1].split(':')[0].strip() if ':' in line else
"Unknown"` (osint.py 31). -/
def sherlockSiteLabel (line : String) : String :=
  if pyContains line ":" then
    pyStrip (pyBeforeFirst (pyBeforeFirst (pyAfterFirst line "[+]") "[+]") ":")
  else "Unknown"

/-- The stdout loop of the api `run_sherlock` (osint.py 25-34). -/
def sherlockApiParse (lines : List ApiLine) : List ApiSite :=
  lines.foldl
    (fun acc l =>
      if pyContains l.text "[+]" then
        match l.urlMatch with
        | some u => acc ++ [⟨sherlockSiteLabel l.text, u, "found"⟩]
        | none => acc
      else acc)
    []

/-- Api `run_sherlock` (osint.py 13-47).  Note: the
`subprocess.TimeoutExpired` branch returns a dict WITHOUT a `results`
key, and the success branch returns a dict WITHOUT an `error` key. -/
def run_sherlock (username : String) (env : AdapterEnv (List ApiLine)) :
    ApiUsernameResult :=
  match env with
  | .ok lines =>
    let sites := sherlockApiParse lines
    ⟨username, some 400, some sites.length, some sites, none⟩
  | .timeout => ⟨username, none, none, none, some "Search timed out"⟩
  | .binMissing => ⟨username, none, none, some [], some "Sherlock not installed"⟩
  | .exc m => ⟨username, none, none, some [], some m⟩

/-- The stdout loop of the api `run_maigret` (osint.py 59-68). -/
def maigretApiParse (lines : List ApiLine) : List ApiSite :=
  lines.foldl
    (fun acc l =>
      if pyContains l.text "[+]" || pyContains (pyLower l.text) "http" then
        match l.urlMatch with
        | some u => acc ++ [⟨"Various", u, "found"⟩]
        | none => acc
      else acc)
    []

/-- Api `run_maigret` (osint.py 49-81); same branch shapes as the api
`run_sherlock`. -/
def run_maigret (username : String) (env : AdapterEnv (List ApiLine)) :
    ApiUsernameResult :=
  match env with
  | .ok lines =>
    let sites := maigretApiParse lines
    ⟨username, some 2000, some sites.length, some sites, none⟩
  | .timeout => ⟨username, none, none, none, some "Deep search timed out"⟩
  | .binMissing => ⟨username, none, none, some [], some "Maigret not installed"⟩
  | .exc m => ⟨username, none, none, some [], some m⟩

/-- One entry of the api `run_holehe` `results` list. -/
structure ApiService where
  service : String
  email_registered : Bool
deriving DecidableEq

/-- The dict returned by the api `run_holehe`. -/
structure ApiEmailResult where
  email : String
  services_checked : Option Nat
  services_found : Option Nat
  results : Option (List ApiService)
  error : Option String

/-- The stdout loop of the api `run_holehe` (osint.py 93-100).
`line.replace('[+]','').strip().split()[0]` raises `IndexError` when
the cleaned line has no tokens; that exception aborts the loop and is
caught by the generic `except`, so the parse is `Except`-valued. -/
def holheApiParse : List String → List ApiService → Except String (List ApiService)
  | [], acc => .ok acc
  | line :: rest, acc =>
    if pyContains line "[+]" then
      match pyWords (pyStrip (pyReplace line "[+]" "")) with
      | [] => .error "list index out of range"
      | t :: _ => holheApiParse rest (acc ++ [⟨t, true⟩])
    else holheApiParse rest acc

/-- Api `run_holehe` (osint.py 83-113). -/
def run_holehe (email : String) (env : AdapterEnv (List String)) : ApiEmailResult :=
  match env with
  | .ok lines =>
    match holheApiParse lines [] with
    | .ok services => ⟨email, some 120, some services.length, some services, none⟩
    | .error m => ⟨email, none, none, some [], some m⟩
  | .timeout => ⟨email, none, none, none, some "Email search timed out"⟩
  | .binMissing => ⟨email, none, none, some [], some "holehe not installed"⟩
  | .exc m => ⟨email, none, none, some [], some m⟩

end ApiOsint

/-- C1 counterexample: in `api/osint.py` the `run_sherlock` dict
returned on subprocess timeout contains NO findings list (`results`
key absent), and the dict returned on success contains NO error field —
so it is false that every path of every one of the adapters returns
both a findings list and an errors field. -/
theorem C1_counterexample :
    (ApiOsint.run_sherlock "alice" AdapterEnv.timeout).results = none ∧
    (ApiOsint.run_sherlock "alice" (AdapterEnv.ok [])).error = none ∧
    (ApiOsint.run_holehe "a@b.com" AdapterEnv.timeout).results = none :=
  ⟨rfl, rfl, rfl⟩

/-- C1 (amended): every adapter returns normally on every modeled
execution path (all six embedded functions are total).  In
`osint-backend/main.py` the three adapters always carry both a findings
list and an `errors` list, each failure kind is captured as a string in
`errors`, and an absent binary yields zero findings.  In
`api/osint.py` an absent binary likewise yields an empty `results` list
plus an error string, but the timeout dict omits the findings list
entirely and the success dict omits the error field. -/
theorem C1_adapter_failure_capture (u e m : String) :
    (OsintBackend.run_sherlock u AdapterEnv.timeout).found = [] ∧
    (OsintBackend.run_sherlock u AdapterEnv.timeout).errors = ["Search timed out"] ∧
    (OsintBackend.run_sherlock u AdapterEnv.binMissing).found = [] ∧
    (OsintBackend.run_sherlock u AdapterEnv.binMissing).errors =
      ["Sherlock not installed. Run: pip install sherlock-project"] ∧
    (OsintBackend.run_sherlock u (AdapterEnv.exc m)).found = [] ∧
    (OsintBackend.run_sherlock u (AdapterEnv.exc m)).errors = ["Error: " ++ m] ∧
    (OsintBackend.run_maigret u AdapterEnv.binMissing).found = [] ∧
    (OsintBackend.run_maigret u AdapterEnv.binMissing).errors =
      ["Maigret not installed. Run: pip install maigret"] ∧
    (OsintBackend.run_maigret u AdapterEnv.timeout).errors = ["Search timed out"] ∧
    (OsintBackend.run_holehe e AdapterEnv.binMissing).registered_on = [] ∧
    (OsintBackend.run_holehe e AdapterEnv.binMissing).errors =
      ["holehe not installed. Run: pip install holehe"] ∧
    (OsintBackend.run_holehe e AdapterEnv.timeout).errors = ["Search timed out"] ∧
    (ApiOsint.run_sherlock u AdapterEnv.binMissing).results = some [] ∧
    (ApiOsint.run_sherlock u AdapterEnv.binMissing).error = some "Sherlock not installed" ∧
    (ApiOsint.run_sherlock u AdapterEnv.timeout).results = none ∧
    (ApiOsint.run_maigret u AdapterEnv.binMissing).results = some [] ∧
    (ApiOsint.run_maigret u AdapterEnv.timeout).results = none ∧
    (ApiOsint.run_holehe e AdapterEnv.binMissing).results = some [] ∧
    (ApiOsint.run_holehe e AdapterEnv.timeout).results = none :=
  ⟨rfl, rfl, rfl, rfl, rfl, rfl, rfl, rfl, rfl, rfl,
   rfl, rfl, rfl, rfl, rfl, rfl, rfl, rfl, rfl⟩

/-- C10: for every input, `run_maigret` truncates `not_found` to its
first 50 entries (a prefix of the full parsed list) and `run_holehe`
truncates `not_registered` to its first 20, while `found` and
`registered_on` are returned in full. -/
theorem C10_payload_truncation (u e : String)
    (envM : AdapterEnv OsintBackend.MaigretRaw)
    (envH : AdapterEnv OsintBackend.HolheRaw) :
    (OsintBackend.run_maigret u envM).not_found.length ≤ 50 ∧
    (∃ t, (OsintBackend.maigretParsed envM).2 =
      (OsintBackend.run_maigret u envM).not_found ++ t) ∧
    (OsintBackend.run_maigret u envM).found = (OsintBackend.maigretParsed envM).1 ∧
    (OsintBackend.run_holehe e envH).not_registered.length ≤ 20 ∧
    (∃ t, (OsintBackend.holheParsed envH).2.1 =
      (OsintBackend.run_holehe e envH).not_registered ++ t) ∧
    (OsintBackend.run_holehe e envH).registered_on = (OsintBackend.holheParsed envH).1 := by
  refine ⟨?_, ?_, rfl, ?_, ?_, rfl⟩
  · exact List.length_take_le 50 ((OsintBackend.maigretParsed envM).2)
  · exact ⟨((OsintBackend.maigretParsed envM).2).drop 50,
      (List.take_append_drop 50 _).symm⟩
  · exact List.length_take_le 20 ((OsintBackend.holheParsed envH).2.1)
  · exact ⟨((OsintBackend.holheParsed envH).2.1).drop 20,
      (List.take_append_drop 20 _).symm⟩

namespace OsintBackend

/-- Request body of `/api/investigate` (main.py 1502-1506). -/
structure InvestigateRequest where
  name : String
  email : Option String := none
  phone : Option String := none
  location : Option String := none

/-- One `flow_steps` record; `result` is `none` until the step writes
its outcome into the record. -/
structure FlowStep where
  step : Nat
  action : String
  status : String
  result : Option String := none
deriving DecidableEq

/-- One `confirmed_profiles` dict; the step-2 dicts carry an `email`
key, the step-3 dicts a `username` key, so both are optional. -/
structure Profile where
  platform : String
  url : String
  source : String
  email : Option String := none
  username : Option String := none
deriving DecidableEq

/-- One `people_search_links` dict (keys `name`, `url`, `type`). -/
structure SearchLink where
  name : String
  url : String
  linkType : String
deriving DecidableEq

/-- Outcome of one awaited external call at the pipeline level: the
callee's return value, or an exception text caught by the step's
`try`/`except`. -/
inductive CallResult (α : Type) where
  | ok (a : α)
  | exc (msg : String)

/-- The pipeline's external world: the single holehe call of step 2 and
one Sherlock call per username in step 3. -/
structure InvEnv where
  holehe : CallResult HolheResult
  sherlock : String → CallResult UsernameSearchResult

/-- The mutable state `investigate_person` accumulates. -/
structure InvState where
  flow_steps : List FlowStep
  discovered_emails : List String
  discovered_usernames : List String
  confirmed_profiles : List Profile
  people_search_links : List SearchLink

/-- All accumulators start empty (main.py 1531-1534). -/
def initInvState : InvState := ⟨[], [], [], [], []⟩

/-- Python `flow_steps[-1]["status"] = ...`: rewrite the last record. -/
def updateLast (l : List FlowStep) (f : FlowStep → FlowStep) : List FlowStep :=
  l.dropLast ++ ((l.getLast?).map f).toList

/-- The `people_search_links` list (main.py 1548-1568): twelve fixed
entries built from the request name and the lower-cased first/last
tokens, plus two location-refined entries when a location is given. -/
def peopleSearchLinks (req : InvestigateRequest) : List SearchLink :=
  let name20 := pyReplace req.name " " "%20"
  let nameDash := pyReplace req.name " " "-"
  let parts := pyWords (pyLower req.name)
  let first := parts.headD ""
  let last := parts.getLastD ""
  let base : List SearchLink := [
    ⟨"TruePeopleSearch",
      "https://www.truepeoplesearch.com/results?name=" ++ name20, "free"⟩,
    ⟨"FastPeopleSearch",
      "https://www.fastpeoplesearch.com/name/" ++ nameDash, "free"⟩,
    ⟨"Whitepages",
      "https://www.whitepages.com/name/" ++ first ++ "-" ++ last, "free"⟩,
    ⟨"Spokeo", "https://www.spokeo.com/" ++ first ++ "-" ++ last, "paid"⟩,
    ⟨"BeenVerified",
      "https://www.beenverified.com/people/" ++ first ++ "-" ++ last ++ "/", "paid"⟩,
    ⟨"Intelius",
      "https://www.intelius.com/people-search/" ++ first ++ "-" ++ last ++ "/", "paid"⟩,
    ⟨"ThatsThem", "https://thatsthem.com/name/" ++ first ++ "-" ++ last, "free"⟩,
    ⟨"USSearch",
      "https://www.ussearch.com/search/results/people?firstName=" ++ first ++
        "&lastName=" ++ last, "paid"⟩,
    ⟨"Facebook", "https://www.facebook.com/search/people?q=" ++ name20, "social"⟩,
    ⟨"LinkedIn",
      "https://www.linkedin.com/search/results/people/?keywords=" ++ name20, "social"⟩,
    ⟨"Instagram", "https://www.instagram.com/" ++ first ++ last ++ "/", "social"⟩,
    ⟨"Twitter/X",
      "https://twitter.com/search?q=" ++ name20 ++ "&f=user", "social"⟩ ]
  match req.location with
  | some l =>
    let loc := pyReplace l " " "%20"
    base ++ [
      ⟨"TruePeopleSearch (Location)",
        "https://www.truepeoplesearch.com/results?name=" ++ name20 ++
          "&citystatezip=" ++ loc, "free"⟩,
      ⟨"Whitepages (Location)",
        "https://www.whitepages.com/name/" ++ first ++ "-" ++ last ++ "/" ++ loc,
        "free"⟩ ]
  | none => base

/-- Step 1 (main.py 1542-1571): append the step-1 record, build the
search links, mark the record complete. -/
def invStep1 (req : InvestigateRequest) (st : InvState) : InvState :=
  let links := peopleSearchLinks req
  let steps := st.flow_steps ++ [⟨1, "Generate people search links", "running", none⟩]
  { st with
    flow_steps := updateLast steps (fun fs =>
      { fs with
        status := "complete"
        result := some ("Generated " ++ toString links.length ++ " search links") })
    people_search_links := st.people_search_links ++ links }

/-- The confirmed-profile dict built from one holehe service record
(main.py 1591-1596). -/
def holheProfile (e : String) (s : HolheEntry) : Profile :=
  { platform := s.service
    url := "https://" ++ pyReplace (pyLower s.service) " " "" ++ ".com"
    source := "holehe (email)"
    email := some e
    username := none }

/-- Step 2 (main.py 1574-1603): skipped when no email is given;
otherwise the email is recorded, the holehe call is awaited inside
`try`, its services become confirmed profiles, and the record is
marked `complete` — or `error` with `str(e)` as the result when the
call raised. -/
def invStep2 (req : InvestigateRequest) (env : InvEnv) (st : InvState) : InvState :=
  match req.email with
  | none => st
  | some e =>
    let st :=
      { st with
        flow_steps := st.flow_steps ++
          [(⟨2, "Check email registration: " ++ e, "running", none⟩ : FlowStep)]
        discovered_emails := st.discovered_emails ++ [e] }
    match env.holehe with
    | .ok res =>
      { st with
        confirmed_profiles :=
          st.confirmed_profiles ++ res.registered_on.map (holheProfile e)
        flow_steps := updateLast st.flow_steps (fun fs =>
          { fs with
            status := "complete"
            result := some ("Found " ++ toString res.registered_on.length ++
              " services") }) }
    | .exc msg =>
      { st with
        flow_steps := updateLast st.flow_steps (fun fs =>
          { fs with
            status := "error"
            result := some msg }) }

/-- The step-3 username loop (main.py 1619-1637): per username, a
raising Sherlock call is swallowed (`except: pass`); otherwise each
found profile with a fresh nonempty URL is recorded once, into the
`all_sherlock_found` url set (first component) and the appended
profile list (second component). -/
def sherlockRound (env : InvEnv) (usernames : List String) :
    List String × List Profile :=
  usernames.foldl
    (fun acc u =>
      match env.sherlock u with
      | .exc _ => acc
      | .ok res =>
        res.found.foldl
          (fun acc p =>
            if p.url ≠ "" ∧ p.url ∉ acc.1 then
              (acc.1 ++ [p.url],
               acc.2 ++ [⟨p.platform, p.url, "sherlock", none, some u⟩])
            else acc)
          acc)
    ([], [])

/-- Step 3 (main.py 1606-1640): the first five username variations are
recorded, the Sherlock round runs, and the record is ALWAYS marked
`complete` — per-username exceptions were swallowed inside the loop. -/
def invStep3 (req : InvestigateRequest) (env : InvEnv) (st : InvState) : InvState :=
  let usernames := (generate_username_variations req.name).take 5
  let round := sherlockRound env usernames
  let steps := st.flow_steps ++
    [⟨3, "Search username variations with Sherlock", "running", none⟩]
  { st with
    flow_steps := updateLast steps (fun fs =>
      { fs with
        status := "complete"
        result := some ("Searched " ++ toString usernames.length ++
          " usernames, found " ++ toString round.1.length ++ " profiles") })
    discovered_usernames := st.discovered_usernames ++ usernames
    confirmed_profiles := st.confirmed_profiles ++ round.2 }

/-- The response dict of `/api/investigate` (main.py 1655-1665). -/
structure InvestigateResult where
  name : String
  flow_steps : List FlowStep
  discovered_emails : List String
  discovered_usernames : List String
  confirmed_profiles : List Profile
  people_search_links : List SearchLink
  summary : String

/-- The summary line (main.py 1643-1651). -/
def buildSummary (req : InvestigateRequest) (st : InvState) : String :=
  let usernames := (generate_username_variations req.name).take 5
  let head := "Investigated: " ++ req.name
  let rest := [
    "Search links: " ++ toString st.people_search_links.length,
    "Usernames tried: " ++ String.intercalate ", " (usernames.take 3) ++ "...",
    "Confirmed profiles: " ++ toString st.confirmed_profiles.length ]
  let parts :=
    match req.email with
    | some e => head :: ("Email checked: " ++ e) :: rest
    | none => head :: rest
  String.intercalate " | " parts

/-- `investigate_person` (main.py 1521-1665): the three steps run in
sequence over the accumulated state. -/
def investigate_person (req : InvestigateRequest) (env : InvEnv) : InvestigateResult :=
  let st := invStep3 req env (invStep2 req env (invStep1 req initInvState))
  { name := req.name
    flow_steps := st.flow_steps
    discovered_emails := st.discovered_emails
    discovered_usernames := st.discovered_usernames
    confirmed_profiles := st.confirmed_profiles
    people_search_links := st.people_search_links
    summary := buildSummary req st }

theorem invStep1_grows (req : InvestigateRequest) (st : InvState) :
    (∃ t, (invStep1 req st).confirmed_profiles = st.confirmed_profiles ++ t) ∧
    (∃ t, (invStep1 req st).discovered_emails = st.discovered_emails ++ t) ∧
    (∃ t, (invStep1 req st).discovered_usernames = st.discovered_usernames ++ t) :=
  ⟨⟨[], by simp [invStep1]⟩, ⟨[], by simp [invStep1]⟩, ⟨[], by simp [invStep1]⟩⟩

theorem invStep2_grows (req : InvestigateRequest) (env : InvEnv) (st : InvState) :
    (∃ t, (invStep2 req env st).confirmed_profiles = st.confirmed_profiles ++ t) ∧
    (∃ t, (invStep2 req env st).discovered_emails = st.discovered_emails ++ t) ∧
    (∃ t, (invStep2 req env st).discovered_usernames = st.discovered_usernames ++ t) := by
  unfold invStep2
  cases req.email with
  | none => exact ⟨⟨[], by simp⟩, ⟨[], by simp⟩, ⟨[], by simp⟩⟩
  | some e =>
    cases env.holehe with
    | ok res =>
      exact ⟨⟨res.registered_on.map (holheProfile e), by simp⟩,
             ⟨[e], by simp⟩, ⟨[], by simp⟩⟩
    | exc m =>
      exact ⟨⟨[], by simp⟩, ⟨[e], by simp⟩, ⟨[], by simp⟩⟩

theorem invStep3_grows (req : InvestigateRequest) (env : InvEnv) (st : InvState) :
    (∃ t, (invStep3 req env st).confirmed_profiles = st.confirmed_profiles ++ t) ∧
    (∃ t, (invStep3 req env st).discovered_emails = st.discovered_emails ++ t) ∧
    (∃ t, (invStep3 req env st).discovered_usernames = st.discovered_usernames ++ t) := by
  unfold invStep3
  exact ⟨⟨(sherlockRound env ((generate_username_variations req.name).take 5)).2, by simp⟩,
         ⟨[], by simp⟩,
         ⟨(generate_username_variations req.name).take 5, by simp⟩⟩

end OsintBackend

/-- C9: the investigation state only grows across pipeline steps — each
step extends `confirmed_profiles`, `discovered_emails` and
`discovered_usernames` by appending (never removing or replacing), and
the final returned result carries the step-3 state verbatim, so every
entry added by an earlier step is still present at the end. -/
theorem C9_state_only_grows (req : OsintBackend.InvestigateRequest)
    (env : OsintBackend.InvEnv) :
    (∃ t, (OsintBackend.invStep2 req env (OsintBackend.invStep1 req OsintBackend.initInvState)).confirmed_profiles =
      (OsintBackend.invStep1 req OsintBackend.initInvState).confirmed_profiles ++ t) ∧
    (∃ t, (OsintBackend.invStep3 req env (OsintBackend.invStep2 req env (OsintBackend.invStep1 req OsintBackend.initInvState))).confirmed_profiles =
      (OsintBackend.invStep2 req env (OsintBackend.invStep1 req OsintBackend.initInvState)).confirmed_profiles ++ t) ∧
    (∃ t, (OsintBackend.invStep2 req env (OsintBackend.invStep1 req OsintBackend.initInvState)).discovered_emails =
      (OsintBackend.invStep1 req OsintBackend.initInvState).discovered_emails ++ t) ∧
    (∃ t, (OsintBackend.invStep3 req env (OsintBackend.invStep2 req env (OsintBackend.invStep1 req OsintBackend.initInvState))).discovered_emails =
      (OsintBackend.invStep2 req env (OsintBackend.invStep1 req OsintBackend.initInvState)).discovered_emails ++ t) ∧
    (∃ t, (OsintBackend.invStep2 req env (OsintBackend.invStep1 req OsintBackend.initInvState)).discovered_usernames =
      (OsintBackend.invStep1 req OsintBackend.initInvState).discovered_usernames ++ t) ∧
    (∃ t, (OsintBackend.invStep3 req env (OsintBackend.invStep2 req env (OsintBackend.invStep1 req OsintBackend.initInvState))).discovered_usernames =
      (OsintBackend.invStep2 req env (OsintBackend.invStep1 req OsintBackend.initInvState)).discovered_usernames ++ t) ∧
    (OsintBackend.investigate_person req env).confirmed_profiles =
      (OsintBackend.invStep3 req env (OsintBackend.invStep2 req env (OsintBackend.invStep1 req OsintBackend.initInvState))).confirmed_profiles ∧
    (OsintBackend.investigate_person req env).discovered_emails =
      (OsintBackend.invStep3 req env (OsintBackend.invStep2 req env (OsintBackend.invStep1 req OsintBackend.initInvState))).discovered_emails ∧
    (OsintBackend.investigate_person req env).discovered_usernames =
      (OsintBackend.invStep3 req env (OsintBackend.invStep2 req env (OsintBackend.invStep1 req OsintBackend.initInvState))).discovered_usernames := by
  obtain ⟨c2, e2, u2⟩ :=
    OsintBackend.invStep2_grows req env (OsintBackend.invStep1 req OsintBackend.initInvState)
  obtain ⟨c3, e3, u3⟩ :=
    OsintBackend.invStep3_grows req env
      (OsintBackend.invStep2 req env (OsintBackend.invStep1 req OsintBackend.initInvState))
  exact ⟨c2, c3, e2, e3, u2, u3, rfl, rfl, rfl⟩

/-- C2 counterexample: with no email given and a Sherlock environment
whose every call raises (`fun _ => exc "boom"`), step 3's external
calls all raise, yet its `flow_steps` record ends with status
`"complete"` (the per-username `except: pass` swallows the failures) —
not `"error"` with a reason, as the claim requires for every step whose
external call raises. -/
theorem C2_counterexample :
    (OsintBackend.investigate_person
      ⟨"Amanda Driskell", none, none, none⟩
      ⟨OsintBackend.CallResult.exc "down",
       fun _ => OsintBackend.CallResult.exc "boom"⟩).flow_steps =
      [⟨1, "Generate people search links", "complete",
         some "Generated 12 search links"⟩,
       ⟨3, "Search username variations with Sherlock", "complete",
         some "Searched 5 usernames, found 0 profiles"⟩] := by
  decide

/-- C2 (amended): a step-2 (email) external-call failure is recorded —
the step-2 record ends with status `"error"` and the exception text as
its result (which is empty exactly when `str(e)` is) — and the
subsequent step 3 still executes: its record is appended and ALWAYS
ends `"complete"` (step 3 swallows its own per-username failures, as
the counterexample shows), and the username variations and the
Sherlock-round profiles still appear in the final result. -/
theorem C2_step2_error_pipeline_continues (name e msg : String)
    (sEnv : String → OsintBackend.CallResult OsintBackend.UsernameSearchResult) :
    (OsintBackend.investigate_person ⟨name, some e, none, none⟩
      ⟨OsintBackend.CallResult.exc msg, sEnv⟩).flow_steps =
      [⟨1, "Generate people search links", "complete",
         some ("Generated " ++
           toString (OsintBackend.peopleSearchLinks ⟨name, some e, none, none⟩).length ++
           " search links")⟩,
       ⟨2, "Check email registration: " ++ e, "error", some msg⟩,
       ⟨3, "Search username variations with Sherlock", "complete",
         some ("Searched " ++
           toString ((OsintBackend.generate_username_variations name).take 5).length ++
           " usernames, found " ++
           toString (OsintBackend.sherlockRound
             ⟨OsintBackend.CallResult.exc msg, sEnv⟩
             ((OsintBackend.generate_username_variations name).take 5)).1.length ++
           " profiles")⟩] ∧
    (OsintBackend.investigate_person ⟨name, some e, none, none⟩
      ⟨OsintBackend.CallResult.exc msg, sEnv⟩).discovered_emails = [e] ∧
    (OsintBackend.investigate_person ⟨name, some e, none, none⟩
      ⟨OsintBackend.CallResult.exc msg, sEnv⟩).discovered_usernames =
      (OsintBackend.generate_username_variations name).take 5 ∧
    (OsintBackend.investigate_person ⟨name, some e, none, none⟩
      ⟨OsintBackend.CallResult.exc msg, sEnv⟩).confirmed_profiles =
      (OsintBackend.sherlockRound ⟨OsintBackend.CallResult.exc msg, sEnv⟩
        ((OsintBackend.generate_username_variations name).take 5)).2 :=
  ⟨rfl, rfl, rfl, rfl⟩
